import Mathlib

/-!
Verification of the q2mm core (loop.py and calculate.py) against its
natural-language specification.

The development shallowly embeds the two source files:

* `calculate.py`: the data dispatch engine (`collect_data`), the command
  router (`sort_commands_by_filename`), the reference loader
  (`read_reference`, `lbl_to_data_attrs`).
* `loop.py`: the loop interpreter (`Loop.run_loop_input`, `Loop.opt_loop`).

External collaborator modules (`filetypes`, `datatypes`, `compare`,
`optimizer`, `parameters`, `constants`, numpy) are not part of the sources;
they are abstracted as environment records (`CalcEnv`, `LoopEnv`) of total
functions, while the adapter DATA they expose to the embedded code
(structure lists, atom lists, properties, eigenvalues) is modelled
concretely so that the extraction logic of `collect_data` is executable.

Python strings are Lean `String`s; the handful of Python string methods the
sources use (`split`, `startswith`, `partition`, `int`) are re-implemented
character by character below so that concrete runs reduce inside the
kernel.  Python numbers are `ℚ` (scores, charges, energies) and `ℤ`
(indices).  Python exceptions are the error cases of an `Except`; each
error constructor names the exception it models.  Python dictionaries are
association lists in insertion order (`outs`, `inps`, command tables) or
update functions (`sort_commands_by_filename`), and Python object
attributes are structure fields, with `none` for `None`.
-/

/-! ### Python string primitives (character level, kernel reducible) -/

/-- Splits a character list at every character satisfying `p`, keeping empty
groups, exactly like Python `str.split(sep)` keeps empty fields. -/
def chSplit (p : Char → Bool) : List Char → List (List Char)
  | [] => [[]]
  | c :: cs =>
    let r := chSplit p cs
    if p c then [] :: r
    else
      match r with
      | [] => [[c]]
      | g :: gs => (c :: g) :: gs

/-- Python `s.split(sep)` for a one-character separator (every separator used
by the sources is one character). -/
def pySplitOn (sep : Char) (s : String) : List String :=
  (chSplit (fun c => c = sep) s.data).map String.mk

/-- Python `s.split()` with no argument: split on whitespace runs and drop
empty fields. -/
def pyWords (s : String) : List String :=
  ((chSplit (fun c => c.isWhitespace) s.data).filter (fun g => ¬ g.isEmpty)).map String.mk

/-- Python `s.startswith(c)` for a one-character argument. -/
def pyStartsWith (pre : Char) (s : String) : Bool :=
  match s.data with
  | c :: _ => c = pre
  | [] => false

/-- Python `s.partition(sep)[0]` for a one-character separator: the part of
the string before the first occurrence of `sep`. -/
def pyPartitionBefore (sep : Char) (s : String) : String :=
  String.mk (s.data.takeWhile (fun c => ¬ c = sep))

/-- Value of a decimal digit. -/
def digitVal (c : Char) : Option ℕ :=
  if c.isDigit then some (c.toNat - 48) else none

/-- Reads a nonempty all-digit character list as a natural number. -/
def digitsVal (l : List Char) : Option ℕ :=
  match l with
  | [] => none
  | _ => l.foldlM (fun acc c => (digitVal c).map (fun d => acc * 10 + d)) 0

/-- Python `int(s)` on the numerals the sources feed it: an optional sign
followed by digits; `none` models `ValueError`. -/
def pyToInt (s : String) : Option ℤ :=
  match s.data with
  | '-' :: rest => (digitsVal rest).map (fun n => -(n : ℤ))
  | '+' :: rest => (digitsVal rest).map (fun n => (n : ℤ))
  | l => (digitsVal l).map (fun n => (n : ℤ))

/-- Joins string token data with single spaces; used to model the
`" ".join(cols[1:]).split()` idiom of `run_loop_input`. -/
def chIntercalate (sep : Char) : List (List Char) → List Char
  | [] => []
  | [g] => g
  | g :: gs => g ++ sep :: chIntercalate sep gs

/-- Python `" ".join(tokens).split()`: rejoin tokens with spaces and resplit
on whitespace (the identity on whitespace-free nonempty tokens). -/
def pyJoinSplit (l : List String) : List String :=
  pyWords (String.mk (chIntercalate ' ' (l.map String.data)))

/-- Python list indexing `l[i]` with negative indices counting from the end;
`none` models `IndexError`. -/
def pyIdx {α : Type} (l : List α) (i : ℤ) : Option α :=
  if 0 ≤ i then l.get? i.toNat
  else
    let j := (l.length : ℤ) + i
    if 0 ≤ j then l.get? j.toNat else none

/-! ### Embedding of loop.py

The `Loop` class state, the directive dispatch of `Loop.run_loop_input`
(lines 47 to 115 of loop.py) and the convergence loop `Loop.opt_loop`
(lines 32 to 46).  A script line is modelled as its token list (the result
of `line.split()`); an empty token list models a line for which `cols[0]`
raises `IndexError`.  The external collaborators called by the directives
are the fields of a `LoopEnv`.  Execution is indexed by a fuel bound
because nested convergence loops need not terminate; `.fuelOut` reports
exhausted fuel and is never interpreted as a verdict about the program. -/

/-- Python exceptions raised by code paths of loop.py. -/
inductive LoopErr where
  /-- IndexError, from `cols[k]` on a too-short token list. -/
  | idxErr
  /-- UnboundLocalError or NameError, from reading `ref_conn` or `cal_conn`
  before any assignment in the current `run_loop_input` call. -/
  | nameErr
  /-- AttributeError, from `self.ff.params` while `self.ff` is `None`. -/
  | attrErr
  /-- StopIteration escaping the `LOOP` body collection when no `END` line
  follows. -/
  | stopIter
  /-- TypeError, from arithmetic on `None` in the change formula of
  `opt_loop`. -/
  | typeErr
  /-- ZeroDivisionError in the change formula of `opt_loop`. -/
  | zeroDiv
  /-- Artificial: the fuel bound of the embedding ran out. -/
  | fuelOut
deriving DecidableEq

/-- State of one `Loop` object (the attributes set in `Loop.__init__`,
with the `__init__` defaults as default field values).  `loop_lines`
carries the script attribute `self.loop_lines`. -/
structure LoopSt (FF : Type) where
  convergence : ℚ := 1/100
  current_cycle_num : ℕ := 0
  ff : Option FF := none
  ff_args : Option (List String) := none
  ff_lines : Option (List String) := none
  loop_lines : Option (List (List String)) := none
  ref_args : Option (List String) := none
  score : Option ℚ := none
  score_init : Option ℚ := none
  score_prev : Option ℚ := none
deriving DecidableEq

/-- External collaborators of loop.py, abstracted as total functions.
`float` models the Python builtin on the threshold token; `calculate_main`
models `calculate.main(args)` (argument parsing included); `gradient_run`
models `optimizer.Gradient(ff=.., ff_args=.., ff_lines=.., ref_conn=..)
.run()` and `ff_score` reads the `score` attribute of the force field it
returns; write effects (`export_ff`, the `COMP -o` output file) are
dropped. -/
structure LoopEnv (FF Data : Type) where
  import_ff : String → FF
  readlines : String → List String
  trim_params_by_file : FF → String → FF
  float : String → ℚ
  calculate_main : List String → Data
  compare_data : Data → Data → ℚ
  gradient_run : Option FF → Option (List String) → Option (List String) → Data → FF
  ff_score : FF → ℚ

/-- The while condition of `opt_loop`, line 34 to 36 of loop.py:
`self.score_prev is None or change is None or change > self.convergence`. -/
def condTrue (sp ch : Option ℚ) (conv : ℚ) : Bool :=
  match sp, ch with
  | none, _ => true
  | _, none => true
  | _, some c => decide (conv < c)

/-- Collection of the nested loop body, lines 73 to 77 of loop.py: consume
lines up to the first line whose first token is `END`; running out of lines
raises StopIteration, a whitespace line raises IndexError at
`line.split()[0]`. -/
def splitAtEnd : List (List String) → Except LoopErr (List (List String) × List (List String))
  | [] => .error .stopIter
  | [] :: _ => .error .idxErr
  | (c :: cs) :: rest =>
    if c = "END" then .ok ([], rest)
    else
      match splitAtEnd rest with
      | .error e => .error e
      | .ok pr => .ok ((c :: cs) :: pr.1, pr.2)

theorem splitAtEnd_length : ∀ {ls : List (List String)} {body after : List (List String)},
    splitAtEnd ls = .ok (body, after) → after.length < ls.length := by
  intro ls
  induction ls with
  | nil => intro b a h; simp [splitAtEnd] at h
  | cons l rest ih =>
    intro b a h
    match l with
    | [] => simp [splitAtEnd] at h
    | c :: cs =>
      rw [splitAtEnd] at h
      by_cases hc : c = "END"
      · rw [if_pos hc] at h
        injection h with h2
        injection h2 with hb ha
        subst ha
        simp
      · rw [if_neg hc] at h
        cases hsp : splitAtEnd rest with
        | error e => rw [hsp] at h; exact absurd h (by simp)
        | ok pr =>
          rw [hsp] at h
          injection h with h2
          injection h2 with hb ha
          subst ha
          exact Nat.lt_trans (ih hsp) (Nat.lt_succ_self _)

theorem splitAtEnd_append {ls post : List (List String)} {body after : List (List String)}
    (h : splitAtEnd ls = .ok (body, after)) :
    splitAtEnd (ls ++ post) = .ok (body, after ++ post) := by
  induction ls generalizing body with
  | nil => simp [splitAtEnd] at h
  | cons l rest ih =>
    match l with
    | [] => simp [splitAtEnd] at h
    | c :: cs =>
      rw [splitAtEnd] at h
      rw [List.cons_append, splitAtEnd]
      by_cases hc : c = "END"
      · rw [if_pos hc] at h ⊢
        injection h with h2
        injection h2 with hb ha
        subst hb; subst ha
        rfl
      · rw [if_neg hc] at h ⊢
        cases hsp : splitAtEnd rest with
        | error e => rw [hsp] at h; exact absurd h (by simp)
        | ok pr =>
          rw [hsp] at h
          injection h with h2
          injection h2 with hb ha
          rw [ih (by rw [hsp, ← ha])]
          rw [← hb]

/-- State of the `Loop` object built by the `LOOP` directive handler, lines
79 to 82 of loop.py: a fresh `Loop()` whose `convergence`, `loop_lines` and
`score` are then assigned.  Every other attribute, in particular `ff`,
keeps its `Loop.__init__` default (`None`): the nested loop is NOT handed
the force field of the enclosing loop. -/
def childInit (env : LoopEnv FF Data) (t : String) (body : List (List String))
    (score : Option ℚ) : LoopSt FF :=
  { convergence := env.float t, loop_lines := some body, score := score }

/-- One non-`LOOP` directive line of `Loop.run_loop_input`.  `cols` is the
token list of the line; `ref_conn` and `cal_conn` are the local variables
of the same name (function locals of the current `run_loop_input` call,
`none` while unassigned, in which case reading them raises
UnboundLocalError).  The source tests `cols[0]` against each directive
name with a separate `if`; since a token equals at most one name, the
chain of if/else below is equivalent. -/
def stepSimple (env : LoopEnv FF Data) (st : LoopSt FF) (cols : List String)
    (ref_conn cal_conn : Option Data) :
    Except LoopErr (LoopSt FF × Option Data × Option Data) :=
  match cols with
  | [] => .error .idxErr
  | c :: rest =>
    if c = "FFLD" then
      match rest with
      | [] => .error .idxErr
      | sub :: rest2 =>
        if sub = "read" then
          match rest2 with
          | [] => .error .idxErr
          | path :: _ =>
            .ok ({st with ff := some (env.import_ff path),
                          ff_lines := some (env.readlines path)}, ref_conn, cal_conn)
        else if sub = "write" then
          match rest2 with
          | [] => .error .idxErr
          | _ :: _ =>
            match st.ff with
            | none => .error .attrErr
            | some _ => .ok (st, ref_conn, cal_conn)
        else .ok (st, ref_conn, cal_conn)
    else if c = "PARM" then
      match st.ff with
      | none => .error .attrErr
      | some f =>
        match rest with
        | [] => .error .idxErr
        | path :: _ =>
          .ok ({st with ff := some (env.trim_params_by_file f path)}, ref_conn, cal_conn)
    else if c = "RDAT" then
      let args := pyJoinSplit rest
      .ok ({st with ref_args := some args}, some (env.calculate_main args), cal_conn)
    else if c = "CDAT" then
      let args := pyJoinSplit rest
      .ok ({st with ff_args := some args}, ref_conn, some (env.calculate_main args))
    else if c = "COMP" then
      if "-o" ∈ (c :: rest) then
        match (c :: rest).get? ((c :: rest).indexOf "-o" + 1) with
        | none => .error .idxErr
        | some _ =>
          match ref_conn, cal_conn with
          | some r, some ca =>
            .ok ({st with score := some (env.compare_data r ca)}, ref_conn, cal_conn)
          | _, _ => .error .nameErr
      else
        match ref_conn, cal_conn with
        | some r, some ca =>
          .ok ({st with score := some (env.compare_data r ca)}, ref_conn, cal_conn)
        | _, _ => .error .nameErr
    else if c = "GRAD" then
      match ref_conn with
      | none => .error .nameErr
      | some r =>
        let newFF := env.gradient_run st.ff st.ff_args st.ff_lines r
        .ok ({st with ff := some newFF, score := some (env.ff_score newFF)}, ref_conn, cal_conn)
    else .ok (st, ref_conn, cal_conn)

mutual
/-- Directive loop of `Loop.run_loop_input`, lines 50 to 115 of loop.py.
Exhausting the line iterator returns the state (`return self.score`); the
`LOOP` directive collects the body up to `END`, builds a `childInit` state,
runs its convergence loop and stores the returned score into `self.score`;
every other directive is one `stepSimple`.  The local variables `ref_conn`
and `cal_conn` are threaded through; each call of the function starts them
afresh. -/
def run_lines (fuel : ℕ) (env : LoopEnv FF Data) (st : LoopSt FF)
    (lines : List (List String)) (ref_conn cal_conn : Option Data) :
    Except LoopErr (LoopSt FF × Option Data × Option Data) :=
  match lines with
  | [] => .ok (st, ref_conn, cal_conn)
  | cols :: ls =>
    match cols with
    | [] => .error .idxErr
    | c :: rest =>
      if c = "LOOP" then
        match hsp : splitAtEnd ls with
        | .error e => .error e
        | .ok pr =>
          match rest with
          | [] => .error .idxErr
          | t :: _ =>
            match fuel with
            | 0 => .error .fuelOut
            | fuel' + 1 =>
              match opt_loop fuel' env (childInit env t pr.1 st.score) none with
              | .error e => .error e
              | .ok cst =>
                run_lines (fuel' + 1) env {st with score := cst.score} pr.2 ref_conn cal_conn
      else
        match stepSimple env st (c :: rest) ref_conn cal_conn with
        | .error e => .error e
        | .ok out => run_lines fuel env out.1 ls out.2.1 out.2.2
termination_by (fuel, lines.length)
decreasing_by
  all_goals first
    | exact Prod.Lex.left _ _ (Nat.lt_succ_self _)
    | exact Prod.Lex.right _ (by simpa using Nat.lt_succ_of_lt (splitAtEnd_length hsp))
    | exact Prod.Lex.right _ (by simp)

/-- Convergence loop `Loop.opt_loop`, lines 32 to 46 of loop.py, on the
state of one `Loop` object; `change` is the function local of the same
name (`None` at entry).  While `condTrue` holds the body increments the
cycle counter, saves `score` into `score_prev`, reruns the script
(`self.run_loop_input(self.loop_lines, score=self.score)`; passing the
current score back through the `score` keyword leaves the state unchanged,
so the call is `run_lines` on the current state with fresh `ref_conn` and
`cal_conn` locals), and computes
`change = (score_prev - score) / score_prev`, which raises TypeError when
either operand is `None` and ZeroDivisionError when `score_prev` is zero.
On exit the final state (whose `score` the source returns) is produced. -/
def opt_loop (fuel : ℕ) (env : LoopEnv FF Data) (st : LoopSt FF) (change : Option ℚ) :
    Except LoopErr (LoopSt FF) :=
  if condTrue st.score_prev change st.convergence then
    match fuel with
    | 0 => .error .fuelOut
    | fuel' + 1 =>
      match st.loop_lines with
      | none => .error .typeErr
      | some lines =>
        match run_lines fuel' env
            {st with current_cycle_num := st.current_cycle_num + 1, score_prev := st.score}
            lines none none with
        | .error e => .error e
        | .ok out =>
          match out.1.score_prev, out.1.score with
          | some p, some s =>
            if p = 0 then .error .zeroDiv
            else opt_loop fuel' env out.1 (some ((p - s) / p))
          | _, _ => .error .typeErr
  else .ok st
termination_by (fuel, 0)
end

/-- Entry point `Loop.run_loop_input(lines, score=score)`: when the `score`
argument is truthy (neither `None` nor `0.0`) it is stored into
`self.score` first; the locals `ref_conn` and `cal_conn` start unassigned. -/
def run_loop_input (fuel : ℕ) (env : LoopEnv FF Data) (st : LoopSt FF)
    (lines : List (List String)) (score : Option ℚ) : Except LoopErr (LoopSt FF) :=
  let st0 :=
    match score with
    | some s => if s = 0 then st else {st with score := some s}
    | none => st
  (run_lines fuel env st0 lines none none).map (fun out => out.1)

/-! ### Unfolding lemmas for the interpreter

The recursion of `run_lines` and `opt_loop` is well founded rather than
structural, so concrete runs and inductive arguments use the following
case equations instead of definitional reduction. -/

theorem run_lines_nil (fuel : ℕ) (env : LoopEnv FF Data) (st : LoopSt FF)
    (rc cc : Option Data) : run_lines fuel env st [] rc cc = .ok (st, rc, cc) := by
  rw [run_lines]

theorem run_lines_step (fuel : ℕ) (env : LoopEnv FF Data) (st : LoopSt FF)
    (c : String) (rest : List String) (ls : List (List String)) (rc cc : Option Data)
    (hc : c ≠ "LOOP") :
    run_lines fuel env st ((c :: rest) :: ls) rc cc =
      match stepSimple env st (c :: rest) rc cc with
      | .error e => .error e
      | .ok out => run_lines fuel env out.1 ls out.2.1 out.2.2 := by
  rw [run_lines]
  simp [hc]

theorem run_lines_loop (fuel : ℕ) (env : LoopEnv FF Data) (st : LoopSt FF)
    (t : String) (ts : List String) (ls body after : List (List String)) (rc cc : Option Data)
    (hsp : splitAtEnd ls = .ok (body, after)) :
    run_lines (fuel + 1) env st (("LOOP" :: t :: ts) :: ls) rc cc =
      match opt_loop fuel env (childInit env t body st.score) none with
      | .error e => .error e
      | .ok cst => run_lines (fuel + 1) env {st with score := cst.score} after rc cc := by
  rw [run_lines]
  rw [if_pos rfl]
  split
  · rename_i e heq
    rw [hsp] at heq
    exact absurd heq (by simp)
  · rename_i pr heq
    rw [hsp] at heq
    injection heq with h2
    subst h2
    rfl

theorem opt_loop_exit (fuel : ℕ) (env : LoopEnv FF Data) (st : LoopSt FF) (change : Option ℚ)
    (hcond : condTrue st.score_prev change st.convergence = false) :
    opt_loop fuel env st change = .ok st := by
  rw [opt_loop.eq_def, hcond]
  simp

theorem opt_loop_iterate (fuel : ℕ) (env : LoopEnv FF Data) (st : LoopSt FF) (change : Option ℚ)
    (lines : List (List String)) (out : LoopSt FF × Option Data × Option Data) (p s : ℚ)
    (hcond : condTrue st.score_prev change st.convergence = true)
    (hlines : st.loop_lines = some lines)
    (hrun : run_lines fuel env
      {st with current_cycle_num := st.current_cycle_num + 1, score_prev := st.score}
      lines none none = .ok out)
    (hp : out.1.score_prev = some p) (hs : out.1.score = some s) (hp0 : p ≠ 0) :
    opt_loop (fuel + 1) env st change = opt_loop fuel env out.1 (some ((p - s) / p)) := by
  rw [opt_loop.eq_def, hcond]
  rw [hlines] at hrun
  simp only [hlines, hrun, hp, hs, if_neg hp0, reduceIte]

/-! ### Abstract-script form of the convergence loop

Claims about `opt_loop` quantify over loops "whose script deterministically
produces a given score sequence".  `opt_loop_script` is `Loop.opt_loop`
with the call `self.run_loop_input(self.loop_lines, score=self.score)`
abstracted into a function `script` from the cycle number to the score the
script run returns; the control flow (the `condTrue` test, the cycle
counter, the saving of `score` into `score_prev`, the change formula with
its TypeError and ZeroDivisionError cases) is that of the source.  The
result pairs the returned score with the number of executed cycles. -/
def opt_loop_script (conv : ℚ) (script : ℕ → ℚ) :
    ℕ → ℕ → Option ℚ → Option ℚ → Option ℚ → Except LoopErr (ℚ × ℕ)
  | 0, _, _, _, _ => .error .fuelOut
  | fuel + 1, cycle, score, score_prev, change =>
    if condTrue score_prev change conv then
      let cycle' := cycle + 1
      let score_prev' := score
      let score' := script cycle'
      match score_prev' with
      | none => .error .typeErr
      | some p =>
        if p = 0 then .error .zeroDiv
        else opt_loop_script conv script fuel cycle' (some score') (some p) (some ((p - score') / p))
    else
      match score with
      | some s => .ok (s, cycle)
      | none => .error .typeErr

/-! ### Embedding of calculate.py: data model

The `Datum` record (from the external `datatypes` module, but fully
determined by the keyword arguments `collect_data` and `read_reference`
construct it with), and the adapter data that the `filetypes` classes
expose to `collect_data`: structures with property maps and atom lists.
Atom property values are `ℚ` (the only property read per atom,
`b_q_use_charge`, is tested for truthiness, so zero is falsy).  The method
`get_aliph_hyds` of a structure is modelled by an `is_aliph_hyd` flag per
atom: the call returns exactly the flagged atoms.  Adapters whose content
`collect_data` only passes on to external Hessian routines (MacroModelLog,
JaguarIn, JaguarOut, GaussFormChk) are opaque values of a parameter type
`A`. -/

/-- Canonical record: the `datatypes.Datum` keyword arguments used by the
sources (`val`, `com`, `typ`, `src_1`, `src_2`, `idx_1`, `idx_2`,
`atm_1` .. `atm_4`, `lbl`, `wht`); unset keywords default to `None`. -/
structure Datum where
  val : ℚ
  com : Option String := none
  typ : Option String := none
  src_1 : Option String := none
  src_2 : Option String := none
  idx_1 : Option ℤ := none
  idx_2 : Option ℤ := none
  atm_1 : Option ℤ := none
  atm_2 : Option ℤ := none
  atm_3 : Option ℤ := none
  atm_4 : Option ℤ := none
  lbl : Option String := none
  wht : Option ℚ := none
deriving DecidableEq

/-- Atom of a parsed structure: index, `partial_charge` (field `charge`
here), bonded atom indices, property map, and whether `get_aliph_hyds`
reports it. -/
structure Atom where
  index : ℤ
  charge : ℚ
  bonded_atom_indices : List ℤ
  props : List (String × ℚ)
  is_aliph_hyd : Bool
deriving DecidableEq

/-- One structure of a parsed file: property map and atom list. -/
structure Struct where
  props : List (String × ℚ)
  atoms : List Atom
deriving DecidableEq

/-- Parsed `.mae` file (`filetypes.Mae`). -/
structure Mae where
  structures : List Struct
deriving DecidableEq

/-- Parsed Gaussian log (`filetypes.GaussLog`): structures (whose
properties carry `hf` and `zp`), eigenvalues, and opaque eigenvectors. -/
structure GaussLog (A : Type) where
  structures : List Struct
  evals : List ℚ
  evecs : A
deriving DecidableEq

/-- Parsed MacroModel `.mmo` file (`filetypes.MacroModel`): structures and
the `filename` attribute used as record provenance. -/
structure MModData where
  structures : List Struct
  filename : String
deriving DecidableEq

/-- One cached entry of the `outs` dictionary of `collect_data`. -/
inductive Adapter (A : Type) where
  | mae (m : Mae)
  | gauss (g : GaussLog A)
  | mmod (m : MModData)
  | blob (a : A)
deriving DecidableEq

/-- Entry of the `inps` mapping that `calculate.main` hands to
`collect_data`: the attributes of a `filetypes.Mae` input object that
`collect_data` reads (derived output filenames, directory, and the opaque
structure-partition indices). -/
structure MaeInput (A : Type) where
  name_mae : String
  name_mmo : String
  name_log : String
  directory : String
  index_output_mae : A
  index_output_mmo : A
deriving DecidableEq

/-- Square numpy matrix abstraction: a dimension and an entry function. -/
structure NpMat where
  dim : ℕ
  entry : ℕ → ℕ → ℚ

/-- Diagonal matrix from a vector, `np.diag(evals)`. -/
def npDiagOfList (l : List ℚ) : NpMat :=
  ⟨l.length, fun i j => if i = j then l.getD i 0 else 0⟩

/-- Zero the off-diagonal entries, `np.diag(np.diag(M))`. -/
def npDiagDiag (M : NpMat) : NpMat :=
  ⟨M.dim, fun i j => if i = j then M.entry i i else 0⟩

/-- Row-major enumeration of the lower-triangle index pairs of an `n` by
`n` matrix, `np.tril_indices_from`: all `(x, y)` with `y ≤ x < n`, rows in
increasing order. -/
def trilIndices (n : ℕ) : List (ℕ × ℕ) :=
  (List.range n).flatMap (fun x => (List.range (x + 1)).map (fun y => (x, y)))

/-- The shared eigenmatrix emission of `collect_data`: one `Datum` per
lower-triangle entry of `M`, in `trilIndices` order, with 1-based row and
column as `idx_1` and `idx_2` (the `izip(lower_tri, low_tri_idx[0],
low_tri_idx[1])` comprehension of the source). -/
def emitTril (M : NpMat) (com typ : String) (s1 s2 : Option String) : List Datum :=
  (trilIndices M.dim).map (fun p =>
    { val := M.entry p.1 p.2, com := some com, typ := some typ,
      src_1 := s1, src_2 := s2,
      idx_1 := some ((p.1 : ℤ) + 1), idx_2 := some ((p.2 : ℤ) + 1) })

/-- Python exceptions raised by code paths of calculate.py. -/
inductive CalcErr where
  /-- NameError on the undefined global it names (`directory`, `data_list`,
  or a conditionally assigned local such as `typ`). -/
  | nameErr (missing : String)
  /-- KeyError from a dictionary or property lookup. -/
  | keyErr
  /-- IndexError from list indexing. -/
  | idxErr
  /-- AttributeError from reading an attribute the object lacks. -/
  | attrErr
  /-- ValueError from `int`, `float`, or tuple unpacking. -/
  | valueErr
  /-- IOError from opening a missing file. -/
  | ioErr
deriving DecidableEq

/-- External collaborators of calculate.py: file reading and float parsing,
the `filetypes` parsers, `filetypes.select_structures`, the `select_stuff`
method of a structure, the `datatypes.Hessian` pipeline (opaque state of
type `A`; `hessianInit` is the two-argument constructor, `hessMat` reads
the `hess` attribute as a matrix, `hessFromFchkEvecs` and
`hessFromMacroEvecs` bundle the attribute assignments of the `geigz2` and
`mgeig` construction), and the two unit-conversion constants from the
`constants` module. -/
structure CalcEnv (A : Type) where
  readFile : String → Option (List String)
  pyFloat : String → Option ℚ
  parseMae : String → Mae
  parseGaussLog : String → GaussLog A
  parseMacroModel : String → MModData
  parseMacroModelLog : String → A
  parseJaguarIn : String → A
  parseJaguarOut : String → A
  parseGaussFormChk : String → A
  select_structures : List Struct → A → String → List (ℕ × Struct)
  select_stuff : Struct → String → String → List String → String → ℤ → List Datum
  hessianInit : Adapter A → Adapter A → A
  mass_weight_hessian : A → A
  mass_weight_eigenvectors : A → A
  diagonalize : A → A
  hessMat : A → NpMat
  hessFromFchkEvecs : Adapter A → Adapter A → A
  hessFromMacroEvecs : Adapter A → Adapter A → A
  HARTREE_TO_KJMOL : ℚ
  HESSIAN_CONVERSION : ℚ

/-- State threaded through `collect_data`: the accumulated `data` list, the
`outs` parse cache (an association list in insertion order), and the trace
of parse events (one filename per `filetypes` constructor call), recorded
so that claims about parse counts can be stated. -/
structure CState (A : Type) where
  data : List Datum
  outs : List (String × Adapter A)
  parses : List String
deriving DecidableEq

/-- Dictionary lookup in `outs`. -/
def outsFind (outs : List (String × Adapter A)) (k : String) : Option (Adapter A) :=
  (outs.find? (fun p => decide (p.1 = k))).map Prod.snd

/-- Dictionary assignment `outs[k] = a`: replace an existing binding,
otherwise append. -/
def outsSet (outs : List (String × Adapter A)) (k : String) (a : Adapter A) :
    List (String × Adapter A) :=
  if (outs.find? (fun p => decide (p.1 = k))).isSome then
    outs.map (fun p => if p.1 = k then (k, a) else p)
  else outs ++ [(k, a)]

/-- Dictionary lookup in `inps`; `none` models `KeyError`. -/
def inpsFind (inps : List (String × MaeInput A)) (k : String) : Option (MaeInput A) :=
  (inps.find? (fun p => decide (p.1 = k))).map Prod.snd

/-- Property lookup `props[k]`; `none` models `KeyError`. -/
def propFind (props : List (String × ℚ)) (k : String) : Option ℚ :=
  (props.find? (fun p => decide (p.1 = k))).map Prod.snd

/-- Reading the `structures` attribute of a cached adapter
(`Mae`, `GaussLog` and `MacroModel` objects expose it; the opaque adapters
are modelled as lacking it). -/
def adapterStructures : Adapter A → Except CalcErr (List Struct)
  | .mae m => .ok m.structures
  | .gauss g => .ok g.structures
  | .mmod m => .ok m.structures
  | .blob _ => .error .attrErr

/-- Reading the `evals` attribute of a cached adapter (only `GaussLog`
exposes it). -/
def adapterEvals : Adapter A → Except CalcErr (List ℚ)
  | .gauss g => .ok g.evals
  | _ => .error .attrErr

/-- Reading the `filename` attribute of a cached adapter (only
`MacroModel` exposes it). -/
def adapterFilename : Adapter A → Except CalcErr String
  | .mmod m => .ok m.filename
  | _ => .error .attrErr

/-- Python `os.path.join(direc, filename)` in the simple relative form the
sources use. -/
def pathJoin (d f : String) : String :=
  if d = "" then f else d ++ "/" ++ f

/-! ### Reference loader -/

/-- One `setattr(datum, "atm_{}".format(i+1), int(atm_num))` of
`lbl_to_data_attrs`; atom slots past the four of the record are not
represented. -/
def setAtm (d : Datum) (i : ℕ) (v : ℤ) : Datum :=
  match i with
  | 0 => {d with atm_1 := some v}
  | 1 => {d with atm_2 := some v}
  | 2 => {d with atm_3 := some v}
  | 3 => {d with atm_4 := some v}
  | _ => d

/-- The atom-number loop of `lbl_to_data_attrs` (lines 654 to 656 of
calculate.py): each `int(atm_num)` may raise `ValueError`. -/
def setAtms (d : Datum) (nums : List String) : Except CalcErr Datum :=
  nums.enum.foldlM (fun d p =>
    match pyToInt p.2 with
    | none => .error .valueErr
    | some v => .ok (setAtm d p.1 v)) d

/-- Label parser `lbl_to_data_attrs` (lines 646 to 660 of calculate.py).
The label is split on underscores; `typ` is the first part; a 3-part label
takes its index block from the last part, a 4-part label takes it from the
second to last and reads the last as hyphen-joined atom numbers; any other
arity leaves the local `idxs` unassigned, an `UnboundLocalError` at the
later `idxs.split`.  `idx_1` is assigned from the first index; for a
two-index block the source line 660 reads `datum.idx_2 == int(idxs[1])`, a
comparison whose value is discarded, so `int` is still evaluated but
`idx_2` is never assigned. -/
def lbl_to_data_attrs (datum : Datum) (lbl : String) : Except CalcErr Datum := do
  let parts := pySplitOn '_' lbl
  let d1 := {datum with typ := some (parts.headD "")}
  let idxs1 : Option String :=
    if parts.length = 3 then some ((pyIdx parts (-1)).getD "") else none
  let step ←
    if parts.length = 4 then do
      let atm_nums := pySplitOn '-' ((pyIdx parts (-1)).getD "")
      let d2 ← setAtms d1 atm_nums
      pure (d2, some ((pyIdx parts (-2)).getD ""))
    else pure (d1, idxs1)
  match step.2 with
  | none => .error (.nameErr "idxs")
  | some idxs => do
    let idxsList := pySplitOn '-' idxs
    let d3 ←
      match pyToInt (idxsList.headD "") with
      | none => .error .valueErr
      | some v => pure {step.1 with idx_1 := some v}
    if idxsList.length = 2 then
      match pyToInt ((idxsList.get? 1).getD "") with
      | none => .error .valueErr
      | some _ => pure d3
    else pure d3

/-- Body of `read_reference` (lines 628 to 644 of calculate.py) over the
lines of the file: skip lines starting with a hyphen, drop everything from
the first `#`, split on whitespace, and turn every exactly-3-column line
into a `Datum` via `float` on weight and value and `lbl_to_data_attrs` on
the label. -/
def read_reference_lines (env : CalcEnv A) (lines : List String) :
    Except CalcErr (List Datum) :=
  lines.foldlM (fun data line => do
    if pyStartsWith '-' line then pure data
    else
      let cols := pyWords (pyPartitionBefore '#' line)
      match cols with
      | [lbl, wht, valstr] =>
        match env.pyFloat wht, env.pyFloat valstr with
        | some w, some v => do
          let datum ← lbl_to_data_attrs {val := v, lbl := some lbl, wht := some w} lbl
          pure (data ++ [datum])
        | _, _ => .error .valueErr
      | _ => pure data) []

/-- Reference loader `read_reference(filename)`: open the file (IOError
when missing) and parse its lines. -/
def read_reference (env : CalcEnv A) (filename : String) : Except CalcErr (List Datum) :=
  match env.readFile filename with
  | none => .error .ioErr
  | some lines => read_reference_lines env lines

/-! ### Command router -/

/-- The dictionary update of `sort_commands_by_filename`: append `command`
to the entry of `filename`, creating it if absent. -/
def sorted_insert (acc : String → Option (List String)) (command filename : String) :
    String → Option (List String) :=
  fun x =>
    if x = filename then
      match acc filename with
      | some l => some (l ++ [command])
      | none => some [command]
    else acc x

/-- Router `sort_commands_by_filename` (lines 587 to 626 of calculate.py):
invert a command table into filename to command list, flattening the
groups (`itertools.chain.from_iterable`) and splitting comma-joined
multi-file tokens.  The resulting Python dictionary is modelled as its
lookup function. -/
def sort_commands_by_filename (commands : List (String × List (List String))) :
    String → Option (List String) :=
  commands.foldl (fun acc p =>
    p.2.flatten.foldl (fun acc comma_separated =>
      (pySplitOn ',' comma_separated).foldl (fun acc filename =>
        sorted_insert acc p.1 filename) acc) acc)
    (fun _ => none)

/-! ### Dispatch engine collect_data

One definition per command family, mirroring the `if com == ...` blocks of
`collect_data` (lines 265 to 585 of calculate.py), threaded over the
`CState`.  The undefined global names the source evaluates on some paths
(`directory` on lines 307, 428, 448, 470, 474, 511 where the parameter is
called `direc`, and `data_list` on line 435 where every other block
appends to `data`) are modelled as the NameError they raise. -/

/-- REFERENCE FILE block (`com == "r"`, lines 275 to 278). -/
def comR (env : CalcEnv A) (direc : String) (st : CState A)
    (groups_filenames : List (List String)) : Except CalcErr (CState A) :=
  groups_filenames.foldlM (fun st group_filenames =>
    group_filenames.foldlM (fun st filename => do
      let ds ← read_reference env (pathJoin direc filename)
      pure {st with data := st.data ++ ds}) st) st

/-- JAGUAR ENERGIES block (`com in ["je", "je2", "jeo"]`, lines 280 to
300).  Only `je` and `jeo` assign the local `typ`; the later read of `typ`
for `je2` is modelled as the NameError a fresh call would raise. -/
def comJe (env : CalcEnv A) (direc : String) (com : String) (st : CState A)
    (groups_filenames : List (List String)) : Except CalcErr (CState A) := do
  let typ ←
    if com = "je" then Except.ok "e"
    else if com = "jeo" then Except.ok "eo"
    else Except.error (.nameErr "typ")
  groups_filenames.enum.foldlM (fun st p =>
    p.2.foldlM (fun st filename => do
      let st ←
        if (outsFind st.outs filename).isSome then pure st
        else pure {st with
          outs := outsSet st.outs filename (.mae (env.parseMae (pathJoin direc filename))),
          parses := st.parses ++ [filename]}
      let mae ←
        match outsFind st.outs filename with
        | some a => Except.ok a
        | none => Except.error .keyErr
      let structures ← adapterStructures mae
      let ds ← structures.enum.foldlM (fun ds q => do
        let e ←
          match propFind q.2.props "r_j_Gas_Phase_Energy" with
          | some x => Except.ok (x * env.HARTREE_TO_KJMOL)
          | none => Except.error .keyErr
        pure (ds ++ [{ val := e, com := some com, typ := some typ,
                       src_1 := some filename, idx_1 := some ((p.1 : ℤ) + 1),
                       idx_2 := some ((q.1 : ℤ) + 1) : Datum }])) ([] : List Datum)
      pure {st with data := st.data ++ ds}) st) st

/-- Truthiness test of lines 318 to 319: use the atom unless its
`b_q_use_charge` property exists and is falsy. -/
def atomUseCharge (a : Atom) : Bool :=
  match propFind a.props "b_q_use_charge" with
  | none => true
  | some v => decide (v ≠ 0)

/-- The `get_aliph_hyds()` adapter call: the atoms the adapter flags. -/
def get_aliph_hyds (s : Struct) : List Atom :=
  s.atoms.filter (fun a => a.is_aliph_hyd)

/-- Atom loop of the JAGUAR CHARGES block (lines 309 to 337) for one
structure.  For `jqh` each bonded aliphatic hydrogen charge is folded into
the atom charge (indexing `structure.atoms[bonded_atom_ind - 1]`), and
aliphatic hydrogens themselves emit no record; the source computes
`aliph_hyds` only under `com == "jqh"` but reads it on line 330 behind the
short-circuiting `com == "jq" or`, so computing it unconditionally is
equivalent for the two commands this block receives. -/
def jqAtoms (com : String) (i : ℕ) (structure0 : Struct) (filename : String)
    (ds : List Datum) : Except CalcErr (List Datum) := do
  let aliph_hyds := get_aliph_hyds structure0
  let aliph_hyds_inds := aliph_hyds.map (fun a => a.index)
  structure0.atoms.foldlM (fun ds atom => do
    if atomUseCharge atom then do
      let q ←
        if com = "jqh" then
          atom.bonded_atom_indices.foldlM (fun q bonded_atom_ind =>
            if bonded_atom_ind ∈ aliph_hyds_inds then
              match pyIdx structure0.atoms (bonded_atom_ind - 1) with
              | some b => Except.ok (q + b.charge)
              | none => Except.error .idxErr
            else Except.ok q) atom.charge
        else pure atom.charge
      if com = "jq" ∨ ¬ atom ∈ aliph_hyds then
        pure (ds ++ [{ val := q, com := some com, typ := some "q",
                       src_1 := some filename, idx_1 := some ((i : ℤ) + 1),
                       atm_1 := some atom.index : Datum }])
      else pure ds
    else pure ds) ds

/-- JAGUAR CHARGES block (`com in ["jq", "jqh"]`, lines 302 to 337).  On a
cache miss the source evaluates `os.path.join(directory, filename)` on
line 307, but no name `directory` is defined anywhere in the module (the
parameter is `direc`), so the parse path raises NameError; the block only
proceeds on files already parsed by an earlier command of the same
invocation. -/
def comJq (env : CalcEnv A) (com : String) (st : CState A)
    (groups_filenames : List (List String)) : Except CalcErr (CState A) :=
  groups_filenames.foldlM (fun st group_filenames =>
    group_filenames.foldlM (fun st filename => do
      let st ←
        if (outsFind st.outs filename).isSome then pure st
        else Except.error (.nameErr "directory")
      let mae ←
        match outsFind st.outs filename with
        | some a => Except.ok a
        | none => Except.error .keyErr
      let structures ← adapterStructures mae
      let ds ← structures.enum.foldlM
        (fun ds q => jqAtoms com q.1 q.2 filename ds) ([] : List Datum)
      pure {st with data := st.data ++ ds}) st) st

/-- Atom loop of the MACROMODEL CHARGES block (lines 353 to 369) for one
selected structure: no folding (MacroModel already zeroes aliphatic
hydrogen charges), aliphatic hydrogens skipped for `mqh`. -/
def mqAtoms (com : String) (str_num : ℕ) (structure0 : Struct) (filename : String)
    (ds : List Datum) : List Datum :=
  let aliph_hyds := get_aliph_hyds structure0
  structure0.atoms.foldl (fun ds atom =>
    if atomUseCharge atom then
      if com = "mq" ∨ ¬ atom ∈ aliph_hyds then
        ds ++ [{ val := atom.charge, com := some com, typ := some "q",
                 src_1 := some filename, idx_1 := some ((str_num : ℤ) + 1),
                 atm_1 := some atom.index : Datum }]
      else ds
    else ds) ds

/-- MACROMODEL CHARGES block (`com in ["mq", "mqh"]`, lines 339 to 369):
look the input file up in `inps`, parse (and cache) its output `.mae`,
select the `pre` structures, and emit the atom charges. -/
def comMq (env : CalcEnv A) (inps : List (String × MaeInput A)) (com : String)
    (st : CState A) (groups_filenames : List (List String)) : Except CalcErr (CState A) :=
  groups_filenames.foldlM (fun st group_filenames =>
    group_filenames.foldlM (fun st filename => do
      let inp ←
        match inpsFind inps filename with
        | some x => Except.ok x
        | none => Except.error .keyErr
      let maeName := inp.name_mae
      let st ←
        if (outsFind st.outs maeName).isSome then pure st
        else pure {st with
          outs := outsSet st.outs maeName
            (.mae (env.parseMae (pathJoin inp.directory maeName))),
          parses := st.parses ++ [maeName]}
      let mae ←
        match outsFind st.outs maeName with
        | some a => Except.ok a
        | none => Except.error .keyErr
      let structuresAll ← adapterStructures mae
      let selected := env.select_structures structuresAll inp.index_output_mae "pre"
      let ds := selected.foldl (fun ds q => mqAtoms com q.1 q.2 filename ds) ([] : List Datum)
      pure {st with data := st.data ++ ds}) st) st

/-- MACROMODEL ENERGIES block (`com in ["me", "me2", "meo"]`, lines 371 to
391); only `me` and `meo` assign the locals `typ` and `ind`. -/
def comMe (env : CalcEnv A) (inps : List (String × MaeInput A)) (com : String)
    (st : CState A) (groups_filenames : List (List String)) : Except CalcErr (CState A) := do
  let ti ←
    if com = "me" then Except.ok ("e", "pre")
    else if com = "meo" then Except.ok ("eo", "opt")
    else Except.error (.nameErr "typ")
  groups_filenames.enum.foldlM (fun st p =>
    p.2.foldlM (fun st filename => do
      let inp ←
        match inpsFind inps filename with
        | some x => Except.ok x
        | none => Except.error .keyErr
      let maeName := inp.name_mae
      let st ←
        if (outsFind st.outs maeName).isSome then pure st
        else pure {st with
          outs := outsSet st.outs maeName
            (.mae (env.parseMae (pathJoin inp.directory maeName))),
          parses := st.parses ++ [maeName]}
      let mae ←
        match outsFind st.outs maeName with
        | some a => Except.ok a
        | none => Except.error .keyErr
      let structuresAll ← adapterStructures mae
      let selected := env.select_structures structuresAll inp.index_output_mae ti.2
      let ds ← selected.foldlM (fun ds q => do
        let v ←
          match propFind q.2.props "r_mmod_Potential_Energy-MM3*" with
          | some x => Except.ok x
          | none => Except.error .keyErr
        pure (ds ++ [{ val := v, com := some com, typ := some ti.1,
                       src_1 := some maeName, idx_1 := some ((p.1 : ℤ) + 1),
                       idx_2 := some ((q.1 : ℤ) + 1) : Datum }])) ([] : List Datum)
      pure {st with data := st.data ++ ds}) st) st

/-- SCHRODINGER STRUCTURES block (`com in ["ja", "jb", "jt", "ma", "mb",
"mt"]`, lines 393 to 419): parse (and cache) the `.mmo` output, select the
partition of the command, and delegate the bond, angle or torsion
extraction to the `select_stuff` method of each selected structure. -/
def comStructures (env : CalcEnv A) (inps : List (String × MaeInput A)) (com : String)
    (sub_names : List String) (st : CState A) (groups_filenames : List (List String)) :
    Except CalcErr (CState A) :=
  let index := if com ∈ ["ja", "jb", "jt"] then "pre" else "opt"
  let typ :=
    if com ∈ ["ja", "ma"] then "angles"
    else if com ∈ ["jb", "mb"] then "bonds"
    else "torsions"
  groups_filenames.foldlM (fun st group_filenames =>
    group_filenames.foldlM (fun st filename => do
      let inp ←
        match inpsFind inps filename with
        | some x => Except.ok x
        | none => Except.error .keyErr
      let mmoName := inp.name_mmo
      let st ←
        if (outsFind st.outs mmoName).isSome then pure st
        else pure {st with
          outs := outsSet st.outs mmoName
            (.mmod (env.parseMacroModel (pathJoin inp.directory mmoName))),
          parses := st.parses ++ [mmoName]}
      let mmo ←
        match outsFind st.outs mmoName with
        | some a => Except.ok a
        | none => Except.error .keyErr
      let structuresAll ← adapterStructures mmo
      let mmoFilename ← adapterFilename mmo
      let selected := env.select_structures structuresAll inp.index_output_mmo index
      let ds := selected.foldl (fun ds q =>
        ds ++ env.select_stuff q.2 typ com sub_names mmoFilename ((q.1 : ℤ) + 1))
        ([] : List Datum)
      pure {st with data := st.data ++ ds}) st) st

/-- GAUSSIAN ENERGIES block (`com in ["ge", "geo"]`, lines 421 to 441).
On a cache miss line 428 evaluates the undefined global `directory`
(NameError); on a cache hit the energy `(hf + zp) * HARTREE_TO_KJMOL` is
computed and then line 435 appends to `data_list`, a name never defined in
the module (NameError), so the block emits nothing on any input. -/
def comGe (env : CalcEnv A) (com : String) (st : CState A)
    (groups_filenames : List (List String)) : Except CalcErr (CState A) := do
  let _typ ←
    if com = "ge" then Except.ok "e"
    else if com = "geo" then Except.ok "eo"
    else Except.error (.nameErr "typ")
  groups_filenames.enum.foldlM (fun st p =>
    p.2.foldlM (fun st name_log => do
      let st ←
        if (outsFind st.outs name_log).isSome then pure st
        else Except.error (.nameErr "directory")
      let log ←
        match outsFind st.outs name_log with
        | some a => Except.ok a
        | none => Except.error .keyErr
      let structures ← adapterStructures log
      let s0 ←
        match pyIdx structures 0 with
        | some s => Except.ok s
        | none => Except.error .idxErr
      let hf ←
        match propFind s0.props "hf" with
        | some x => Except.ok x
        | none => Except.error .keyErr
      let zp ←
        match propFind s0.props "zp" with
        | some x => Except.ok x
        | none => Except.error .keyErr
      let _energy := (hf + zp) * env.HARTREE_TO_KJMOL
      Except.error (.nameErr "data_list")) st) st

/-- GAUSSIAN EIGENMATRIX block (`com == "geigz"`, lines 443 to 462).  On a
cache miss line 448 evaluates the undefined global `directory`
(NameError); on a cache hit the eigenvalues are unit-converted, laid on a
diagonal matrix and emitted over the lower triangle. -/
def comGeigz (env : CalcEnv A) (st : CState A)
    (groups_filenames : List (List String)) : Except CalcErr (CState A) :=
  groups_filenames.foldlM (fun st group_filenames =>
    group_filenames.foldlM (fun st name_log => do
      let st ←
        if (outsFind st.outs name_log).isSome then pure st
        else Except.error (.nameErr "directory")
      let log ←
        match outsFind st.outs name_log with
        | some a => Except.ok a
        | none => Except.error .keyErr
      let evals ← adapterEvals log
      let evals_matrix := npDiagOfList (evals.map (fun e => e * env.HESSIAN_CONVERSION))
      let ds := emitTril evals_matrix "geigz" "eig" (some name_log) none
      pure {st with data := st.data ++ ds}) st) st

/-- Legacy GAUSSIAN EIGENMATRIX block (`com == "geigz2"`, lines 464 to
496); both parse paths (lines 470 and 474) evaluate the undefined global
`directory` on a cache miss. -/
def comGeigz2 (env : CalcEnv A) (st : CState A)
    (groups_filenames : List (List String)) : Except CalcErr (CState A) :=
  groups_filenames.foldlM (fun st group_filenames =>
    group_filenames.foldlM (fun st comma_filenames => do
      let pair ←
        match pySplitOn ',' comma_filenames with
        | [a, b] => Except.ok (a, b)
        | _ => Except.error .valueErr
      let st ←
        if (outsFind st.outs pair.1).isSome then pure st
        else Except.error (.nameErr "directory")
      let log ←
        match outsFind st.outs pair.1 with
        | some a => Except.ok a
        | none => Except.error .keyErr
      let st ←
        if (outsFind st.outs pair.2).isSome then pure st
        else Except.error (.nameErr "directory")
      let fchk ←
        match outsFind st.outs pair.2 with
        | some a => Except.ok a
        | none => Except.error .keyErr
      let h1 := env.mass_weight_hessian (env.hessFromFchkEvecs log fchk)
      let h2 := env.diagonalize h1
      let diagonal_matrix := npDiagDiag (env.hessMat h2)
      let ds := emitTril diagonal_matrix "geigz2" "eig" (some pair.1) (some pair.2)
      pure {st with data := st.data ++ ds}) st) st

/-- MacroModel eigenmatrix with Gaussian eigenvectors (`com == "mgeig"`,
lines 498 to 530): the MacroModel log is parsed through `inps` (cached
consistently under its own name), but the Gaussian log parse on line 511
evaluates the undefined global `directory` on a cache miss. -/
def comMgeig (env : CalcEnv A) (inps : List (String × MaeInput A)) (st : CState A)
    (groups_filenames : List (List String)) : Except CalcErr (CState A) :=
  groups_filenames.foldlM (fun st group_filenames =>
    group_filenames.foldlM (fun st comma_filenames => do
      let pair ←
        match pySplitOn ',' comma_filenames with
        | [a, b] => Except.ok (a, b)
        | _ => Except.error .valueErr
      let inp ←
        match inpsFind inps pair.1 with
        | some x => Except.ok x
        | none => Except.error .keyErr
      let name_macro_log := inp.name_log
      let st ←
        if (outsFind st.outs name_macro_log).isSome then pure st
        else pure {st with
          outs := outsSet st.outs name_macro_log
            (.blob (env.parseMacroModelLog (pathJoin inp.directory inp.name_log))),
          parses := st.parses ++ [name_macro_log]}
      let macro_log ←
        match outsFind st.outs name_macro_log with
        | some a => Except.ok a
        | none => Except.error .keyErr
      let st ←
        if (outsFind st.outs pair.2).isSome then pure st
        else Except.error (.nameErr "directory")
      let gau_log ←
        match outsFind st.outs pair.2 with
        | some a => Except.ok a
        | none => Except.error .keyErr
      let h1 := env.diagonalize (env.hessFromMacroEvecs macro_log gau_log)
      let ds := emitTril (env.hessMat h1) "mgeig" "eig" (some name_macro_log) (some pair.2)
      pure {st with data := st.data ++ ds}) st) st

/-- Schrodinger eigenmatrix block (`com in ["jeigz", "mjeig"]`, lines 532
to 583).  For `mjeig` the cache check on line 540 tests `name_other` (the
`.mae` name) while the store on line 541 and the read on line 545 use
`name_log`, so the check never matches the stored key; for `jeigz` the
`JaguarIn` cache is keyed consistently.  The `JaguarOut` file is cached
consistently under its own name.  The `datatypes.Hessian` pipeline is the
two-argument constructor, mass weighting of the Hessian for `jeigz` only,
mass weighting of the eigenvectors, diagonalization, and for `jeigz` the
zeroing of the off-diagonal entries. -/
def comJeig (env : CalcEnv A) (inps : List (String × MaeInput A)) (direc : String)
    (com : String) (st : CState A) (groups_filenames : List (List String)) :
    Except CalcErr (CState A) :=
  groups_filenames.foldlM (fun st group_filenames =>
    group_filenames.foldlM (fun st comma_filenames => do
      let pair ←
        match pySplitOn ',' comma_filenames with
        | [a, b] => Except.ok (a, b)
        | _ => Except.error .valueErr
      let name_other := pair.1
      let name_out := pair.2
      let stOther ←
        if com = "mjeig" then do
          let inp ←
            match inpsFind inps name_other with
            | some x => Except.ok x
            | none => Except.error .keyErr
          let name_log := inp.name_log
          let st ←
            if (outsFind st.outs name_other).isSome then pure st
            else pure {st with
              outs := outsSet st.outs name_log
                (.blob (env.parseMacroModelLog (pathJoin inp.directory inp.name_log))),
              parses := st.parses ++ [name_log]}
          let other ←
            match outsFind st.outs name_log with
            | some a => Except.ok a
            | none => Except.error .keyErr
          pure (st, other)
        else do
          let st ←
            if (outsFind st.outs name_other).isSome then pure st
            else pure {st with
              outs := outsSet st.outs name_other
                (.blob (env.parseJaguarIn (pathJoin direc name_other))),
              parses := st.parses ++ [name_other]}
          let other ←
            match outsFind st.outs name_other with
            | some a => Except.ok a
            | none => Except.error .keyErr
          pure (st, other)
      let st := stOther.1
      let st ←
        if (outsFind st.outs name_out).isSome then pure st
        else pure {st with
          outs := outsSet st.outs name_out
            (.blob (env.parseJaguarOut (pathJoin direc name_out))),
          parses := st.parses ++ [name_out]}
      let out ←
        match outsFind st.outs name_out with
        | some a => Except.ok a
        | none => Except.error .keyErr
      let h0 := env.hessianInit stOther.2 out
      let h1 := if com = "jeigz" then env.mass_weight_hessian h0 else h0
      let h2 := env.diagonalize (env.mass_weight_eigenvectors h1)
      let diagonal_matrix :=
        if com = "jeigz" then npDiagDiag (env.hessMat h2) else env.hessMat h2
      let ds := emitTril diagonal_matrix com "eig" (some name_other) (some name_out)
      pure {st with data := st.data ++ ds}) st) st

/-- Dispatch of one command of the table.  The source tests `com` against
each family with a separate `if`; the families are disjoint, so the chain
of if/else below is equivalent, and a command outside every family
contributes nothing. -/
def runCom (env : CalcEnv A) (inps : List (String × MaeInput A)) (direc : String)
    (sub_names : List String) (st : CState A) (com : String)
    (groups_filenames : List (List String)) : Except CalcErr (CState A) :=
  if com = "r" then comR env direc st groups_filenames
  else if com ∈ ["je", "je2", "jeo"] then comJe env direc com st groups_filenames
  else if com ∈ ["jq", "jqh"] then comJq env com st groups_filenames
  else if com ∈ ["mq", "mqh"] then comMq env inps com st groups_filenames
  else if com ∈ ["me", "me2", "meo"] then comMe env inps com st groups_filenames
  else if com ∈ ["ja", "jb", "jt", "ma", "mb", "mt"] then
    comStructures env inps com sub_names st groups_filenames
  else if com ∈ ["ge", "geo"] then comGe env com st groups_filenames
  else if com = "geigz" then comGeigz env st groups_filenames
  else if com = "geigz2" then comGeigz2 env st groups_filenames
  else if com = "mgeig" then comMgeig env inps st groups_filenames
  else if com ∈ ["jeigz", "mjeig"] then comJeig env inps direc com st groups_filenames
  else .ok st

/-- Engine `collect_data(coms, inps, direc, sub_names)` over a command
table in iteration order, starting from empty `data` and `outs`; the full
final state (data, cache, parse trace) is returned. -/
def collect_data_aux (env : CalcEnv A) (inps : List (String × MaeInput A)) (direc : String)
    (sub_names : List String) (coms : List (String × List (List String))) :
    Except CalcErr (CState A) :=
  coms.foldlM (fun st p => runCom env inps direc sub_names st p.1 p.2) ⟨[], [], []⟩

/-- The value `collect_data` returns: the accumulated data list. -/
def collect_data (env : CalcEnv A) (inps : List (String × MaeInput A)) (direc : String)
    (sub_names : List String) (coms : List (String × List (List String))) :
    Except CalcErr (List Datum) :=
  (collect_data_aux env inps direc sub_names coms).map (fun st => st.data)

/-! ### Lemmas about the lower-triangle enumeration -/

theorem trilIndices_length_two (n : ℕ) : 2 * (trilIndices n).length = n * (n + 1) := by
  induction n with
  | zero => simp [trilIndices]
  | succ n ih =>
    rw [trilIndices, List.range_succ, List.flatMap_append]
    rw [List.length_append]
    rw [show ((List.range n).flatMap
      (fun x => (List.range (x + 1)).map (fun y => (x, y)))) = trilIndices n from rfl]
    simp only [List.flatMap_cons, List.flatMap_nil, List.append_nil, List.length_map,
      List.length_range]
    rw [Nat.mul_add, ih]
    ring

theorem trilIndices_length (n : ℕ) : (trilIndices n).length = n * (n + 1) / 2 := by
  have h := trilIndices_length_two n
  omega

theorem trilIndices_mem {n : ℕ} {p : ℕ × ℕ} (h : p ∈ trilIndices n) : p.2 ≤ p.1 := by
  simp only [trilIndices, List.mem_flatMap, List.mem_map, List.mem_range] at h
  obtain ⟨x, _, y, hy, hp⟩ := h
  subst hp
  omega

theorem emitTril_length (M : NpMat) (com typ : String) (s1 s2 : Option String) :
    (emitTril M com typ s1 s2).length = M.dim * (M.dim + 1) / 2 := by
  rw [emitTril, List.length_map, trilIndices_length]

theorem emitTril_idx (M : NpMat) (com typ : String) (s1 s2 : Option String) :
    (emitTril M com typ s1 s2).map (fun d => (d.idx_1, d.idx_2)) =
      (trilIndices M.dim).map (fun p => (some ((p.1 : ℤ) + 1), some ((p.2 : ℤ) + 1))) := by
  rw [emitTril, List.map_map]
  rfl

theorem emitTril_lower (M : NpMat) (com typ : String) (s1 s2 : Option String) :
    ∀ d ∈ emitTril M com typ s1 s2,
      ∃ i j : ℤ, d.idx_1 = some i ∧ d.idx_2 = some j ∧ j ≤ i := by
  intro d hd
  rw [emitTril, List.mem_map] at hd
  obtain ⟨p, hp, hd⟩ := hd
  subst hd
  exact ⟨(p.1 : ℤ) + 1, (p.2 : ℤ) + 1, rfl, rfl, by
    have := trilIndices_mem hp
    omega⟩

/-! ### Remaining case equations and the prefix lemma for run_lines -/

theorem run_lines_emptycols (fuel : ℕ) (env : LoopEnv FF Data) (st : LoopSt FF)
    (ls : List (List String)) (rc cc : Option Data) :
    run_lines fuel env st ([] :: ls) rc cc = .error .idxErr := by
  rw [run_lines]

theorem run_lines_loop_errsplit (fuel : ℕ) (env : LoopEnv FF Data) (st : LoopSt FF)
    (rest : List String) (ls : List (List String)) (rc cc : Option Data) (e : LoopErr)
    (h : splitAtEnd ls = .error e) :
    run_lines fuel env st (("LOOP" :: rest) :: ls) rc cc = .error e := by
  rw [run_lines]
  rw [if_pos rfl]
  split
  · rename_i e2 heq
    rw [h] at heq
    injection heq with h2
    rw [h2]
  · rename_i pr heq
    rw [h] at heq
    exact absurd heq (by simp)

theorem run_lines_loop_noarg (fuel : ℕ) (env : LoopEnv FF Data) (st : LoopSt FF)
    (ls body after : List (List String)) (rc cc : Option Data)
    (h : splitAtEnd ls = .ok (body, after)) :
    run_lines fuel env st (["LOOP"] :: ls) rc cc = .error .idxErr := by
  rw [run_lines]
  rw [if_pos rfl]
  split
  · rename_i e heq
    rw [h] at heq
    exact absurd heq (by simp)
  · rfl

theorem run_lines_loop_nofuel (env : LoopEnv FF Data) (st : LoopSt FF)
    (t : String) (ts : List String) (ls body after : List (List String)) (rc cc : Option Data)
    (h : splitAtEnd ls = .ok (body, after)) :
    run_lines 0 env st (("LOOP" :: t :: ts) :: ls) rc cc = .error .fuelOut := by
  rw [run_lines]
  rw [if_pos rfl]
  split
  · rename_i e heq
    rw [h] at heq
    exact absurd heq (by simp)
  · rfl

/-- Successful prefix runs compose: when the directives `pre` run to
`out`, running `pre ++ post` continues with `post` from the state and
locals of `out`, with the same fuel (the list recursion of `run_lines`
passes its fuel through unchanged). -/
theorem run_lines_append_bounded :
    ∀ (n : ℕ) (pre : List (List String)), pre.length ≤ n →
    ∀ (fuel : ℕ) (env : LoopEnv FF Data) (st : LoopSt FF) (post : List (List String))
      (rc cc : Option Data) (out : LoopSt FF × Option Data × Option Data),
      run_lines fuel env st pre rc cc = .ok out →
      run_lines fuel env st (pre ++ post) rc cc =
        run_lines fuel env out.1 post out.2.1 out.2.2 := by
  intro n
  induction n with
  | zero =>
    intro pre hlen fuel env st post rc cc out h
    have hpre : pre = [] := List.length_eq_zero.mp (Nat.le_zero.mp hlen)
    subst hpre
    rw [run_lines_nil] at h
    injection h with h2
    subst h2
    rw [List.nil_append]
  | succ n ih =>
    intro pre hlen fuel env st post rc cc out h
    match pre with
    | [] =>
      rw [run_lines_nil] at h
      injection h with h2
      subst h2
      rw [List.nil_append]
    | [] :: ls =>
      rw [run_lines_emptycols] at h
      exact absurd h (by simp)
    | (c :: rest) :: ls =>
      by_cases hc : c = "LOOP"
      · subst hc
        cases hsp : splitAtEnd ls with
        | error e =>
          rw [run_lines_loop_errsplit _ _ _ _ _ _ _ _ hsp] at h
          exact absurd h (by simp)
        | ok pr =>
          obtain ⟨body, after⟩ := pr
          match rest with
          | [] =>
            rw [run_lines_loop_noarg _ _ _ _ _ _ _ _ hsp] at h
            exact absurd h (by simp)
          | t :: ts =>
            match fuel with
            | 0 =>
              rw [run_lines_loop_nofuel _ _ _ _ _ _ _ _ _ hsp] at h
              exact absurd h (by simp)
            | fuel0 + 1 =>
              rw [run_lines_loop _ _ _ _ _ _ _ _ _ _ hsp] at h
              rw [List.cons_append,
                run_lines_loop _ _ _ _ _ _ _ _ _ _ (splitAtEnd_append hsp)]
              cases hopt : opt_loop fuel0 env (childInit env t body st.score) none with
              | error e =>
                rw [hopt] at h
                simp at h
              | ok cst =>
                rw [hopt] at h
                have hafter : after.length ≤ n := by
                  have h1 := splitAtEnd_length hsp
                  have h2 : ls.length + 1 ≤ n + 1 := by simpa using hlen
                  omega
                exact ih after hafter _ env _ post rc cc out h
      · rw [run_lines_step _ _ _ _ _ _ _ _ hc] at h
        rw [List.cons_append, run_lines_step _ _ _ _ _ _ _ _ hc]
        cases hss : stepSimple env st (c :: rest) rc cc with
        | error e =>
          rw [hss] at h
          simp at h
        | ok out1 =>
          rw [hss] at h
          have hls : ls.length ≤ n := by
            have h2 : ls.length + 1 ≤ n + 1 := by simpa using hlen
            omega
          exact ih ls hls fuel env out1.1 post out1.2.1 out1.2.2 out h

theorem run_lines_append (pre : List (List String)) (fuel : ℕ) (env : LoopEnv FF Data)
    (st : LoopSt FF) (post : List (List String)) (rc cc : Option Data)
    (out : LoopSt FF × Option Data × Option Data)
    (h : run_lines fuel env st pre rc cc = .ok out) :
    run_lines fuel env st (pre ++ post) rc cc =
      run_lines fuel env out.1 post out.2.1 out.2.2 :=
  run_lines_append_bounded pre.length pre le_rfl fuel env st post rc cc out h

/-! ### Membership lemmas for the command router -/

theorem sorted_insert_mem (acc : String → Option (List String)) (com fn x c : String) :
    c ∈ ((sorted_insert acc com fn x).getD []) ↔
      c ∈ ((acc x).getD []) ∨ (x = fn ∧ c = com) := by
  unfold sorted_insert
  by_cases hx : x = fn
  · subst hx
    rw [if_pos rfl]
    cases hacc : acc x with
    | none => simp [hacc]
    | some l => simp [hacc]
  · rw [if_neg hx]
    simp [hx]

theorem foldl_insert_mem (fns : List String) (acc : String → Option (List String))
    (com x c : String) :
    c ∈ ((fns.foldl (fun acc fn => sorted_insert acc com fn) acc x).getD []) ↔
      c ∈ ((acc x).getD []) ∨ (x ∈ fns ∧ c = com) := by
  induction fns generalizing acc with
  | nil => simp
  | cons f fns ih =>
    rw [List.foldl_cons, ih, sorted_insert_mem]
    simp only [List.mem_cons]
    constructor
    · rintro ((h | ⟨rfl, rfl⟩) | ⟨hmem, rfl⟩)
      · exact Or.inl h
      · exact Or.inr ⟨Or.inl rfl, rfl⟩
      · exact Or.inr ⟨Or.inr hmem, rfl⟩
    · rintro (h | ⟨(rfl | hmem), rfl⟩)
      · exact Or.inl (Or.inl h)
      · exact Or.inl (Or.inr ⟨rfl, rfl⟩)
      · exact Or.inr ⟨hmem, rfl⟩

theorem foldl_tok_mem (toks : List String) (acc : String → Option (List String))
    (com x c : String) :
    c ∈ ((toks.foldl (fun acc t =>
        (pySplitOn ',' t).foldl (fun a fn => sorted_insert a com fn) acc) acc x).getD []) ↔
      c ∈ ((acc x).getD []) ∨ ((∃ t ∈ toks, x ∈ pySplitOn ',' t) ∧ c = com) := by
  induction toks generalizing acc with
  | nil => simp
  | cons t toks ih =>
    rw [List.foldl_cons, ih, foldl_insert_mem]
    simp only [List.mem_cons]
    constructor
    · rintro ((h | ⟨hmem, rfl⟩) | ⟨⟨t2, ht2, hmem⟩, rfl⟩)
      · exact Or.inl h
      · exact Or.inr ⟨⟨t, Or.inl rfl, hmem⟩, rfl⟩
      · exact Or.inr ⟨⟨t2, Or.inr ht2, hmem⟩, rfl⟩
    · rintro (h | ⟨⟨t2, (rfl | ht2), hmem⟩, rfl⟩)
      · exact Or.inl (Or.inl h)
      · exact Or.inl (Or.inr ⟨hmem, rfl⟩)
      · exact Or.inr ⟨⟨t2, ht2, hmem⟩, rfl⟩

theorem sort_commands_mem_aux (cmds : List (String × List (List String)))
    (acc : String → Option (List String)) (x c : String) :
    c ∈ ((cmds.foldl (fun acc p =>
        p.2.flatten.foldl (fun acc comma_separated =>
          (pySplitOn ',' comma_separated).foldl (fun acc filename =>
            sorted_insert acc p.1 filename) acc) acc) acc x).getD []) ↔
      c ∈ ((acc x).getD []) ∨
        ∃ gfs, (c, gfs) ∈ cmds ∧ ∃ g ∈ gfs, ∃ t ∈ g, x ∈ pySplitOn ',' t := by
  induction cmds generalizing acc with
  | nil => simp
  | cons p cmds ih =>
    rw [List.foldl_cons, ih, foldl_tok_mem]
    simp only [List.mem_cons, List.mem_flatten]
    constructor
    · rintro ((h | ⟨⟨t, ⟨g, hg, hgt⟩, hmem⟩, rfl⟩) | ⟨gfs, hgfs, hrest⟩)
      · exact Or.inl h
      · exact Or.inr ⟨p.2, Or.inl Prod.mk.eta, g, hg, t, hgt, hmem⟩
      · exact Or.inr ⟨gfs, Or.inr hgfs, hrest⟩
    · rintro (h | ⟨gfs, (hp | hgfs), g, hg, t, hgt, hmem⟩)
      · exact Or.inl (Or.inl h)
      · subst hp
        exact Or.inl (Or.inr ⟨⟨t, ⟨g, hg, hgt⟩, hmem⟩, rfl⟩)
      · exact Or.inr ⟨gfs, hgfs, g, hg, t, hgt, hmem⟩

/-! ### Reduction lemmas for the Except monad (used to evaluate runs) -/

theorem exceptBind_ok {ε α β : Type} (a : α) (f : α → Except ε β) :
    (do let x ← (Except.ok a : Except ε α); f x) = f a := rfl

theorem exceptBind_err {ε α β : Type} (e : ε) (f : α → Except ε β) :
    (do let x ← (Except.error e : Except ε α); f x) = .error e := rfl

theorem exceptMap_ok {ε α β : Type} (a : α) (f : α → β) :
    (f <$> (Except.ok a : Except ε α)) = .ok (f a) := rfl

theorem exceptMap_err {ε α β : Type} (e : ε) (f : α → β) :
    (f <$> (Except.error e : Except ε α)) = .error e := rfl

theorem exceptPure {ε α : Type} (a : α) : (pure a : Except ε α) = .ok a := rfl

/-! ### Claim C1 -/

/-- Claim C1 (counterexample): as stated, the claim is false, because the
behaviour of `opt_loop` also depends on the score the loop holds before
its first cycle, which the claim leaves unconstrained.  With threshold
0.02 and a script deterministically producing 10.0, 9.0, 8.91, 8.90, a
loop whose score at entry is 10.0 stops after its FIRST cycle (the one
producing 10.0, with relative change 0), returning score 10.0 after 1
cycle rather than 8.91 after 3. -/
theorem c1_convergence_counterexample :
    opt_loop_script (1/50) (fun k => [(10:ℚ), 9, 891/100, 89/10].getD (k - 1) 0)
      10 0 (some 10) none none = .ok (10, 1) ∧
    Except.ok ((10:ℚ), 1) ≠ (.ok ((891:ℚ)/100, 3) : Except LoopErr (ℚ × ℕ)) := by
  constructor
  · norm_num [opt_loop_script, condTrue]
  · intro h
    injection h with h2
    rw [Prod.mk.injEq] at h2
    have := h2.1
    norm_num at this

/-- Claim C1 (amended): for every loop whose script deterministically
produces the scores 10.0, 9.0, 8.91 on its first three runs and whose
convergence threshold is 0.02, PROVIDED the score held before the first
cycle is a nonzero value s0 whose relative change to 10.0 exceeds the
threshold, `opt_loop` stops after the cycle producing 8.91 (relative
change (9 - 8.91)/9 = 0.01 below 0.02), returning 8.91 after exactly 3
cycles; the script value for any later cycle (in particular the run that
would produce 8.90) is never evaluated, which the quantification over all
such scripts expresses. -/
theorem c1_convergence_amended (script : ℕ → ℚ) (s0 : ℚ) (f : ℕ)
    (h1 : script 1 = 10) (h2 : script 2 = 9) (h3 : script 3 = 891/100)
    (h0 : s0 ≠ 0) (hs : 1/50 < (s0 - 10) / s0) :
    opt_loop_script (1/50) script (f + 4) 0 (some s0) none none = .ok (891/100, 3) := by
  have d1 : condTrue none none (1/50) = true := rfl
  have d2 : condTrue (some s0) (some ((s0 - 10) / s0)) (1/50) = true := by
    simp only [condTrue]
    exact decide_eq_true hs
  have d3 : condTrue (some 10) (some (((10:ℚ) - 9) / 10)) (1/50) = true := by
    simp only [condTrue]
    rw [decide_eq_true_eq]
    norm_num
  have d4 : condTrue (some 9) (some (((9:ℚ) - 891/100) / 9)) (1/50) = false := by
    simp only [condTrue]
    rw [decide_eq_false_iff_not]
    norm_num
  rw [show f + 4 = (f + 3) + 1 from rfl, opt_loop_script]
  simp only [d1, reduceIte, Nat.zero_add, h1, if_neg h0]
  rw [show f + 3 = (f + 2) + 1 from rfl, opt_loop_script]
  simp only [d2, reduceIte, Nat.reduceAdd, h2, if_neg (by norm_num : ¬ (10:ℚ) = 0)]
  rw [show f + 2 = (f + 1) + 1 from rfl, opt_loop_script]
  simp only [d3, reduceIte, Nat.reduceAdd, h3, if_neg (by norm_num : ¬ (9:ℚ) = 0)]
  rw [opt_loop_script]
  simp only [d4, Bool.false_eq_true, reduceIte]

/-- Claim C1 (witness): the amended theorem applied to the concrete script
producing 10.0, 9.0, 8.91, 8.90 and the entry score 100. -/
theorem c1_convergence_witness :
    opt_loop_script (1/50) (fun k => [(10:ℚ), 9, 891/100, 89/10].getD (k - 1) 0)
      4 0 (some 100) none none = .ok (891/100, 3) :=
  c1_convergence_amended (fun k => [(10:ℚ), 9, 891/100, 89/10].getD (k - 1) 0) 100 0
    rfl rfl rfl (by norm_num) (by norm_num)

/-! ### Claim C6 -/

/-- Claim C6 (counterexample): with threshold 0.02, entry score 100 and a
script producing 10.0 then 11.0 (an increase) then 5.0, the loop STOPS on
the cycle whose score increased: the relative change (10 - 11)/10 is
negative, which satisfies the stopping test (it is not above the positive
threshold), so `opt_loop` returns after cycle 2 with score 11.0 and never
executes a further iteration, contradicting the claim that a negative
change fails the stopping test and forces another iteration. -/
theorem c6_increase_counterexample :
    opt_loop_script (1/50) (fun k => [(10:ℚ), 11, 5].getD (k - 1) 0)
      10 0 (some 100) none none = .ok (11, 2) ∧ (10:ℚ) < 11 := by
  constructor
  · norm_num [opt_loop_script, condTrue]
  · norm_num

/-- Claim C6 (amended): in every convergence-loop iteration in which the
score increases relative to a positive previous score, the computed
relative change is negative; with a positive threshold the negative change
PASSES the stopping test (`change > convergence` is false), so `opt_loop`
stops right after that iteration and never executes a further one. -/
theorem c6_increase_amended (conv : ℚ) (script : ℕ → ℚ) (fuel cycle : ℕ) (p : ℚ)
    (sp ch : Option ℚ)
    (hcond : condTrue sp ch conv = true) (hconv : 0 < conv) (hp : 0 < p)
    (hinc : p < script (cycle + 1)) :
    opt_loop_script conv script (fuel + 2) cycle (some p) sp ch =
      .ok (script (cycle + 1), cycle + 1) := by
  have hneg : (p - script (cycle + 1)) / p < 0 :=
    div_neg_of_neg_of_pos (by linarith) hp
  have d2 : condTrue (some p) (some ((p - script (cycle + 1)) / p)) conv = false := by
    simp only [condTrue]
    rw [decide_eq_false_iff_not]
    exact not_lt.mpr (le_of_lt (lt_trans hneg hconv))
  rw [show fuel + 2 = (fuel + 1) + 1 from rfl, opt_loop_script]
  simp only [hcond, reduceIte, if_neg (ne_of_gt hp)]
  rw [opt_loop_script]
  simp only [d2, Bool.false_eq_true, reduceIte]

/-- Claim C6 (witness): the amended theorem at threshold 0.02, previous
score 10 and a constant script producing 11. -/
theorem c6_increase_witness :
    opt_loop_script (1/50) (fun _ => (11:ℚ)) 2 0 (some 10) none none = .ok (11, 1) :=
  c6_increase_amended (1/50) (fun _ => (11:ℚ)) 0 0 10 none none rfl
    (by norm_num) (by norm_num) (by norm_num)

/-! ### Claim C7 -/

/-- Claim C7 (code bug): parsing the well-formed reference label
`b_1_3-5`, whose index block encodes the two hyphen-joined indices 3 and
5, reproduces `typ` and `idx_1` but leaves `idx_2` unset, because source
line 660 reads `datum.idx_2 == int(idxs[1])`, an equality comparison whose
result is discarded, instead of an assignment; the claim says `idx_2` is
reproduced exactly as encoded.  The 4-part example of the claim does work:
`q_1_1_6` yields kind `q`, `idx_1 = 1` and `atm_1 = 6`. -/
theorem c7_label_idx2_never_assigned :
    (lbl_to_data_attrs {val := 0} "b_1_3-5").map (fun d => (d.typ, d.idx_1, d.idx_2)) =
      .ok (some "b", some 3, none) ∧
    (lbl_to_data_attrs {val := 0} "q_1_1_6").map (fun d => (d.typ, d.idx_1, d.atm_1)) =
      .ok (some "q", some 1, some 6) := by
  constructor
  · rfl
  · rfl

/-! ### Claim C9 -/

/-- Claim C9: `sort_commands_by_filename` maps a filename to a command if
and only if that filename appears, possibly as a constituent of a
comma-joined multi-file token, in some group of that command; each
constituent of a comma-joined token receives the commands of the token it
appeared in.  This membership equivalence is exactly the statement that
re-grouping the inverted map by command recovers the file membership of
the original table. -/
theorem c9_router_membership (commands : List (String × List (List String)))
    (filename com : String) :
    com ∈ ((sort_commands_by_filename commands filename).getD []) ↔
      ∃ gfs, (com, gfs) ∈ commands ∧
        ∃ g ∈ gfs, ∃ tok ∈ g, filename ∈ pySplitOn ',' tok := by
  rw [sort_commands_by_filename, sort_commands_mem_aux]
  simp

/-! ### Claim C10 -/

/-- Claim C10: within one `run_loop_input` invocation the reference and
computed record sequences are bound to the function locals `ref_conn` and
`cal_conn`, which every invocation starts unassigned (`opt_loop` passes
`none, none` to `run_lines`, including for the body of a nested `LOOP`).
Consequently, whenever the directives `pre` executed so far leave at least
one of the two locals unassigned (in particular when the corresponding
`RDAT` or `CDAT` ran only in an enclosing invocation), a following `COMP`
directive (without `-o`, whose output-file lookup would be reached first)
fails with the undefined-name error instead of comparing data from another
level. -/
theorem c10_comp_undefined_locals {FF Data : Type} (fuel : ℕ) (env : LoopEnv FF Data)
    (st st1 : LoopSt FF) (pre rest : List (List String)) (r : List String)
    (rc1 cc1 : Option Data)
    (hpre : run_lines fuel env st pre none none = .ok (st1, rc1, cc1))
    (hmissing : rc1 = none ∨ cc1 = none)
    (ho : ¬ "-o" ∈ ("COMP" :: r)) :
    run_lines fuel env st (pre ++ ("COMP" :: r) :: rest) none none = .error .nameErr := by
  have hstep : stepSimple env st1 ("COMP" :: r) rc1 cc1 = .error .nameErr := by
    rw [stepSimple.eq_def]
    dsimp only
    rw [if_neg (by decide : ¬ ("COMP" : String) = "FFLD")]
    rw [if_neg (by decide : ¬ ("COMP" : String) = "PARM")]
    rw [if_neg (by decide : ¬ ("COMP" : String) = "RDAT")]
    rw [if_neg (by decide : ¬ ("COMP" : String) = "CDAT")]
    rw [if_pos (rfl : ("COMP" : String) = "COMP")]
    rw [if_neg ho]
    obtain h | h := hmissing
    · subst h
      rfl
    · subst h
      cases rc1 with
      | none => rfl
      | some d => rfl
  rw [run_lines_append pre fuel env st (("COMP" :: r) :: rest) none none (st1, rc1, cc1) hpre]
  rw [run_lines_step fuel env _ "COMP" r rest _ _ (by decide)]
  rw [hstep]

/-- Trivial environment used by the concrete loop-interpreter runs: force
fields are naturals, data sets are naturals, the optimizer returns force
field 99 when handed `None` and is the identity otherwise, and the score
of a force field is its value. -/
def envLoopW : LoopEnv ℕ ℕ where
  import_ff := fun _ => 2
  readlines := fun _ => []
  trim_params_by_file := fun f _ => f + 1
  float := fun _ => 1/100
  calculate_main := fun _ => 0
  compare_data := fun _ _ => 7
  gradient_run := fun off _ _ _ => match off with | none => 99 | some f => f
  ff_score := fun f => (f : ℚ)

/-- Claim C10 (witness): the theorem applied to the empty prefix: a `COMP`
as the very first directive of an invocation fails with the
undefined-name error. -/
theorem c10_comp_undefined_witness :
    run_lines 3 envLoopW {} [["COMP"]] none none = .error .nameErr :=
  c10_comp_undefined_locals 3 envLoopW {} {} [] [] [] none none
    (run_lines_nil 3 envLoopW {} none none) (Or.inl rfl) (by decide)

/-! ### Claim C3 -/

/-- Claim C3 (amended): the `LOOP` directive does NOT hand the enclosing
force-field object to the nested loop: the nested loop starts from
`childInit`, whose `ff` is `None` (first conjunct), only the current score
being passed in.  When the nested convergence loop returns, the enclosing
state is unchanged except that its score is replaced by the nested final
score (second conjunct, stated for a `LOOP` that closes the script); in
particular the enclosing `ff` is exactly what it was (third conjunct), so
no force-field change made by the nested directives is visible to the
enclosing loop. -/
theorem c3_loop_ff_not_shared (fuel : ℕ) (env : LoopEnv FF Data) (st : LoopSt FF)
    (t : String) (ts : List String) (ls body : List (List String)) (rc cc : Option Data)
    (cst : LoopSt FF)
    (hsp : splitAtEnd ls = .ok (body, []))
    (hopt : opt_loop fuel env (childInit env t body st.score) none = .ok cst) :
    (childInit env t body st.score).ff = none ∧
    run_lines (fuel + 1) env st (("LOOP" :: t :: ts) :: ls) rc cc =
      .ok ({st with score := cst.score}, rc, cc) ∧
    LoopSt.ff {st with score := cst.score} = st.ff := by
  refine ⟨rfl, ?_, rfl⟩
  rw [run_lines_loop _ _ _ _ _ _ _ _ _ _ hsp, hopt]
  exact run_lines_nil _ _ _ _ _

/-- Child state of the concrete nested-loop run, at entry. -/
def chA : LoopSt ℕ := childInit envLoopW "0.01" [["RDAT", "x"], ["GRAD"]] (some 200)

/-- Child state after its first cycle (RDAT then GRAD on `ff = None`,
which yields force field 99 and score 99). -/
def chB : LoopSt ℕ := {chA with current_cycle_num := 1, score_prev := some 200, ref_args := some ["x"], ff := some 99, score := some 99}

/-- Child state after its second, converging cycle. -/
def chC : LoopSt ℕ := {chA with current_cycle_num := 2, score_prev := some 99, ref_args := some ["x"], ff := some 99, score := some 99}

/-- Concrete run of the nested convergence loop: two cycles, final force
field 99 and final score 99. -/
theorem opt_loop_chA : opt_loop 8 envLoopW chA none = .ok chC := by
  have hj : pyJoinSplit ["x"] = ["x"] := by decide
  have e1 : run_lines 7 envLoopW
      {chA with current_cycle_num := chA.current_cycle_num + 1, score_prev := chA.score}
      [["RDAT", "x"], ["GRAD"]] none none = .ok (chB, some 0, none) := by
    simp [run_lines_step, run_lines_nil, stepSimple, envLoopW, chA, chB, childInit, hj]
  have e2 : run_lines 6 envLoopW
      {chB with current_cycle_num := chB.current_cycle_num + 1, score_prev := chB.score}
      [["RDAT", "x"], ["GRAD"]] none none = .ok (chC, some 0, none) := by
    simp [run_lines_step, run_lines_nil, stepSimple, envLoopW, chA, chB, chC, childInit, hj]
  rw [show (8:ℕ) = 7 + 1 from rfl,
      opt_loop_iterate 7 envLoopW chA none _ _ 200 99
        (by simp [chA, childInit, condTrue]) (by simp [chA, childInit]) e1
        (by simp [chB, chA, childInit]) (by simp [chB, chA, childInit]) (by norm_num)]
  rw [show (7:ℕ) = 6 + 1 from rfl,
      opt_loop_iterate 6 envLoopW chB _ _ _ 99 99
        (by norm_num [chB, chA, childInit, condTrue, envLoopW])
        (by simp [chB, chA, childInit]) e2
        (by simp [chC, chA, childInit]) (by simp [chC, chA, childInit]) (by norm_num)]
  rw [opt_loop_exit _ _ _ _ (by norm_num [chC, chA, childInit, condTrue, envLoopW])]

/-- Claim C3 (counterexample): a concrete enclosing loop holding force
field 1 and score 200 runs the script `LOOP 0.01; RDAT x; GRAD; END`.  The
nested loop ends holding force field 99 (second conjunct: its `GRAD`
received `None`, not the enclosing force field, and the optimizer then
returned 99), yet after control returns the enclosing loop still holds
force field 1 (first conjunct) — the nested force-field change is NOT
visible to the enclosing loop, refuting the claimed sharing; only the
score is handed back (it becomes 99). -/
theorem c3_ff_not_shared_counterexample :
    (run_lines 9 envLoopW {ff := some 1, score := some 200}
        [["LOOP", "0.01"], ["RDAT", "x"], ["GRAD"], ["END"]] none none).map
      (fun out => (out.1.ff, out.1.score)) = .ok (some 1, some 99) ∧
    (opt_loop 8 envLoopW chA none).map (fun cst => (cst.ff, cst.score)) =
      .ok (some 99, some 99) := by
  constructor
  · rw [show (9:ℕ) = 8 + 1 from rfl,
       run_lines_loop 8 envLoopW _ "0.01" [] [["RDAT", "x"], ["GRAD"], ["END"]]
         [["RDAT", "x"], ["GRAD"]] [] none none rfl]
    dsimp only
    rw [show childInit envLoopW "0.01" [["RDAT", "x"], ["GRAD"]] (some 200) = chA from rfl]
    rw [opt_loop_chA]
    dsimp only
    rw [run_lines_nil]
    simp [chC, chA, childInit, Except.map]
  · rw [opt_loop_chA]
    simp [chC, chA, childInit, Except.map, envLoopW]

/-- Final state of the empty-body nested loop used by the C3 witness. -/
def cstW3 : LoopSt ℕ := {convergence := 1/100, current_cycle_num := 1, loop_lines := some [], score := some 1, score_prev := some 1}

/-- Claim C3 (witness): the amended theorem applied to a concrete
enclosing state with force field 5 and score 1 and an empty nested body
(which converges after one cycle with the score unchanged). -/
theorem c3_loop_ff_not_shared_witness :
    (childInit envLoopW "0.01" [] (some 1)).ff = none ∧
    run_lines 4 envLoopW {ff := some 5, score := some 1} [["LOOP", "0.01"], ["END"]] none none =
      .ok ({({ff := some 5, score := some 1} : LoopSt ℕ) with score := cstW3.score}, none, none) ∧
    LoopSt.ff {({ff := some 5, score := some 1} : LoopSt ℕ) with score := cstW3.score} =
      LoopSt.ff ({ff := some 5, score := some 1} : LoopSt ℕ) :=
  c3_loop_ff_not_shared 3 envLoopW {ff := some 5, score := some 1} "0.01" [] [["END"]] []
    none none cstW3
    rfl
    (by
      rw [show (3:ℕ) = 2 + 1 from rfl,
          opt_loop_iterate 2 envLoopW (childInit envLoopW "0.01" [] (some 1)) none []
            (cstW3, none, none) 1 1
            (by simp [childInit, condTrue]) (by simp [childInit])
            (run_lines_nil 2 envLoopW _ none none) (by simp [cstW3]) (by simp [cstW3])
            (by norm_num)]
      exact opt_loop_exit _ _ _ _ (by norm_num [cstW3, condTrue]))

/-! ### Concrete environment for the dispatch-engine runs -/

/-- Trivial calculate environment over opaque adapters `Unit`: every parse
returns an empty or unit adapter, both conversion constants are 1, and the
Hessian pipeline always yields the 1 by 1 zero matrix. -/
def envCalc0 : CalcEnv Unit where
  readFile := fun _ => some []
  pyFloat := fun _ => some 1
  parseMae := fun _ => ⟨[]⟩
  parseGaussLog := fun _ => ⟨[], [], ()⟩
  parseMacroModel := fun _ => ⟨[], ""⟩
  parseMacroModelLog := fun _ => ()
  parseJaguarIn := fun _ => ()
  parseJaguarOut := fun _ => ()
  parseGaussFormChk := fun _ => ()
  select_structures := fun _ _ _ => []
  select_stuff := fun _ _ _ _ _ _ => []
  hessianInit := fun _ _ => ()
  mass_weight_hessian := id
  mass_weight_eigenvectors := id
  diagonalize := id
  hessMat := fun _ => ⟨1, fun _ _ => 0⟩
  hessFromFchkEvecs := fun _ _ => ()
  hessFromMacroEvecs := fun _ _ => ()
  HARTREE_TO_KJMOL := 1
  HESSIAN_CONVERSION := 1

/-- The `inps` attributes of the input file `a.mae`, whose MacroModel log
is `a.log`. -/
def miC2 : MaeInput Unit := {name_mae := "a-out.mae", name_mmo := "a.mmo", name_log := "a.log", directory := "", index_output_mae := (), index_output_mmo := ()}

/-- The `inps` mapping holding `a.mae`. -/
def inpsC2 : List (String × MaeInput Unit) := [("a.mae", miC2)]

/-! ### Claim C2 -/

/-- Claim C2 (code bug): an `mjeig` command whose group references the same
comma pair `a.mae,a.out` twice parses the MacroModel log `a.log` TWICE:
the cache check (line 540) consults the key `a.mae` while the entry is
stored under `a.log` (line 541), so the second reference misses the cache
and re-parses; the parse trace is `a.log, a.out, a.log`, with two parse
events for the physical file `a.log`, refuting at-most-one parse per
physical filename.  (The `a.out` JaguarOut parse, cached under a
consistent key, is correctly not repeated.) -/
theorem c2_mjeig_double_parse :
    (collect_data_aux envCalc0 inpsC2 "" ["OPT"]
        [("mjeig", [["a.mae,a.out", "a.mae,a.out"]])]).map (fun st => st.parses) =
      .ok ["a.log", "a.out", "a.log"] ∧
    ["a.log", "a.out", "a.log"].count "a.log" = 2 := by
  constructor
  · rfl
  · rfl

/-! ### Claim C4 -/

/-- Claim C4 (code bug): the Gaussian single-file energy command emits
nothing, ever.  On a fresh file the parse line 428 evaluates the undefined
global `directory` (the parameter is `direc`) and raises NameError before
parsing; and even on a cached adapter holding `hf` and `zp`, after
computing `(hf + zp) * HARTREE_TO_KJMOL` the append on line 435 goes to
`data_list`, a name never defined (every other block appends to `data`),
raising NameError — so no energy record ever reaches the returned data
sequence, against the claim that one record per file is emitted. -/
theorem c4_gauss_energy_dead_code :
    collect_data envCalc0 [] "" ["OPT"] [("ge", [["a.log"]])] = .error (.nameErr "directory") ∧
    comGe envCalc0 "ge"
        {data := [], outs := [("a.log", .gauss ⟨[⟨[("hf", 1), ("zp", 2)], []⟩], [], ()⟩)],
         parses := []}
        [["a.log"]] = .error (.nameErr "data_list") := by
  constructor
  · rfl
  · rfl

/-! ### Claim C5 -/

/-- Heavy atom of the charge-folding scenario: charge -0.30, bonded to the
two hydrogens. -/
def a1 : Atom := {index := 1, charge := -30/100, bonded_atom_indices := [2, 3], props := [], is_aliph_hyd := false}

/-- First aliphatic hydrogen, charge 0.05, bonded to the heavy atom. -/
def a2 : Atom := {index := 2, charge := 5/100, bonded_atom_indices := [1], props := [], is_aliph_hyd := true}

/-- Second aliphatic hydrogen, charge 0.07, bonded to the heavy atom. -/
def a3 : Atom := {index := 3, charge := 7/100, bonded_atom_indices := [1], props := [], is_aliph_hyd := true}

/-- The structure holding the three atoms (and a gas-phase energy so that
a `je` command can cache the file first). -/
def structC5 : Struct := {props := [("r_j_Gas_Phase_Energy", 0)], atoms := [a1, a2, a3]}

/-- Parsed form of the scenario file `f.mae`. -/
def maeC5 : Mae := ⟨[structC5]⟩

/-- Environment whose Mae parser yields the scenario file. -/
def envC5 : CalcEnv Unit := {envCalc0 with parseMae := fun _ => maeC5}

set_option maxHeartbeats 1000000 in
/-- Claim C5 (code bug): first conjunct — a fresh `jqh` (equally `jq`)
command cannot reach the charge logic at all: the parse path evaluates the
undefined global `directory` (line 307; the parameter is `direc`) and
raises NameError, against the claimed emission.  Second and third
conjuncts evaluate the charge logic the claim describes on the one code
path that reaches it (the file already parsed by an earlier `je` command
of the same invocation): `jqh` emits exactly one charge record, for the
heavy atom, valued -0.30 + 0.05 + 0.07 = -0.18, and none for the two
hydrogens, while `jq` emits three records, one per atom, with the raw
charges. -/
theorem c5_charge_folding :
    collect_data envC5 [] "" ["OPT"] [("jqh", [["f.mae"]])] = .error (.nameErr "directory") ∧
    (collect_data envC5 [] "" ["OPT"] [("je", [["f.mae"]]), ("jqh", [["f.mae"]])]).map
      (fun data => (data.filter (fun d => decide (d.typ = some "q"))).map
        (fun d => (d.val, d.idx_1, d.atm_1))) =
      .ok [(-18/100, some 1, some 1)] ∧
    (collect_data envC5 [] "" ["OPT"] [("je", [["f.mae"]]), ("jq", [["f.mae"]])]).map
      (fun data => (data.filter (fun d => decide (d.typ = some "q"))).map
        (fun d => (d.val, d.idx_1, d.atm_1))) =
      .ok [(-30/100, some 1, some 1), (5/100, some 1, some 2), (7/100, some 1, some 3)] := by
  refine ⟨rfl, ?_, rfl⟩
  · simp [collect_data, collect_data_aux, runCom, comJe, comJq, jqAtoms, get_aliph_hyds,
      atomUseCharge, outsFind, outsSet, inpsFind, propFind, adapterStructures, pathJoin,
      pyIdx, envC5, envCalc0, maeC5, structC5, a1, a2, a3, Except.map,
      exceptBind_ok, exceptBind_err, exceptMap_ok, exceptMap_err, exceptPure,
      List.foldlM_cons, List.foldlM_nil, List.enum]
    norm_num

/-! ### Claim C8 -/

set_option maxHeartbeats 1600000 in
/-- Claim C8: for the Schrodinger eigenmatrix commands (the reachable
eigen-data extractions; the Gaussian variants abort on the undefined name
`directory` before reaching their emission), whenever the Hessian pipeline
produces an N by N matrix, the extraction emits exactly N(N+1)/2 records,
one per lower-triangle element in row-major order, with 1-based row and
column indices — and that enumeration satisfies column at most row
(`idx_1 ≥ idx_2`), the third conjunct.  Stated for one comma pair under
`jeigz` and under `mjeig`, with the matrix-dimension hypotheses phrased
over the respective external pipelines. -/
theorem c8_eigen_lower_triangle {A : Type} (env : CalcEnv A) (inps : List (String × MaeInput A))
    (direc : String) (sub_names : List String) (N : ℕ) (tok nameO nameU : String)
    (mi : MaeInput A)
    (htok : pySplitOn ',' tok = [nameO, nameU])
    (hinp : inpsFind inps nameO = some mi)
    (hno : nameU ≠ nameO)
    (hnl : nameU ≠ mi.name_log)
    (hdimJ : (env.hessMat (env.diagonalize (env.mass_weight_eigenvectors (env.mass_weight_hessian
      (env.hessianInit (.blob (env.parseJaguarIn (pathJoin direc nameO)))
        (.blob (env.parseJaguarOut (pathJoin direc nameU)))))))).dim = N)
    (hdimM : (env.hessMat (env.diagonalize (env.mass_weight_eigenvectors
      (env.hessianInit (.blob (env.parseMacroModelLog (pathJoin mi.directory mi.name_log)))
        (.blob (env.parseJaguarOut (pathJoin direc nameU))))))).dim = N) :
    ((collect_data env inps direc sub_names [("jeigz", [[tok]])]).map
      (fun data => (data.length, data.map (fun d => (d.idx_1, d.idx_2)))) =
      .ok (N * (N + 1) / 2,
        (trilIndices N).map (fun p => (some ((p.1 : ℤ) + 1), some ((p.2 : ℤ) + 1)))))
    ∧ ((collect_data env inps direc sub_names [("mjeig", [[tok]])]).map
      (fun data => (data.length, data.map (fun d => (d.idx_1, d.idx_2)))) =
      .ok (N * (N + 1) / 2,
        (trilIndices N).map (fun p => (some ((p.1 : ℤ) + 1), some ((p.2 : ℤ) + 1)))))
    ∧ (∀ p ∈ trilIndices N, p.2 ≤ p.1) := by
  refine ⟨?_, ?_, fun p hp => trilIndices_mem hp⟩
  · simp [collect_data, collect_data_aux, runCom, comJeig, htok, hinp, Ne.symm hno,
      Ne.symm hnl, outsFind, outsSet, Except.map,
      exceptBind_ok, exceptBind_err, exceptMap_ok, exceptMap_err, exceptPure,
      List.foldlM_cons, List.foldlM_nil, npDiagDiag, emitTril_length, emitTril_idx, hdimJ]
  · simp [collect_data, collect_data_aux, runCom, comJeig, htok, hinp, Ne.symm hno,
      Ne.symm hnl, outsFind, outsSet, Except.map,
      exceptBind_ok, exceptBind_err, exceptMap_ok, exceptMap_err, exceptPure,
      List.foldlM_cons, List.foldlM_nil, npDiagDiag, emitTril_length, emitTril_idx, hdimM]

/-- Claim C8 (witness): the theorem applied to the trivial environment,
whose Hessian pipeline returns a 1 by 1 matrix, on the pair
`a.mae,a.out`. -/
theorem c8_eigen_lower_triangle_witness :
    ((collect_data envCalc0 inpsC2 "" ["OPT"] [("jeigz", [["a.mae,a.out"]])]).map
      (fun data => (data.length, data.map (fun d => (d.idx_1, d.idx_2)))) =
      .ok (1 * (1 + 1) / 2,
        (trilIndices 1).map (fun p => (some ((p.1 : ℤ) + 1), some ((p.2 : ℤ) + 1)))))
    ∧ ((collect_data envCalc0 inpsC2 "" ["OPT"] [("mjeig", [["a.mae,a.out"]])]).map
      (fun data => (data.length, data.map (fun d => (d.idx_1, d.idx_2)))) =
      .ok (1 * (1 + 1) / 2,
        (trilIndices 1).map (fun p => (some ((p.1 : ℤ) + 1), some ((p.2 : ℤ) + 1)))))
    ∧ (∀ p ∈ trilIndices 1, p.2 ≤ p.1) :=
  c8_eigen_lower_triangle envCalc0 inpsC2 "" ["OPT"] 1 "a.mae,a.out" "a.mae" "a.out" miC2
    rfl rfl (by decide) (by decide) rfl rfl
